import Mathlib

/-!
Shallow embedding of the jester reverse proxy core (crates/jester-core):
the route-matching engine (src/router.rs), the request pipeline helpers
(src/proxy.rs), and a small-step model of the listener accept loops and
shutdown coordination.

Strings are modelled as lists of characters (`Str`).  Parsers provided by
external libraries (std IP-address parsing, http URI parsing) are taken as
function parameters where the verified code only calls them; http method
and header-name token validation is modelled concretely.
-/

namespace Jester

/-- Strings, modelled as lists of characters. -/
abbrev Str := List Char

/-- Embed a Lean string literal as a `Str`. -/
def str (s : String) : Str := s.data

/-- Rust `u8::to_ascii_lowercase`, on characters. -/
def asciiLower (c : Char) : Char :=
  if 65 ≤ c.toNat ∧ c.toNat ≤ 90 then Char.ofNat (c.toNat + 32) else c

/-- Rust `str::to_ascii_lowercase`. -/
def lowerStr (s : Str) : Str := s.map asciiLower

/-- Rust `str::eq_ignore_ascii_case`. -/
def eqIgnoreAsciiCase (a b : Str) : Bool := decide (lowerStr a = lowerStr b)

/-- Rust `str::strip_prefix p`: `some` of the remainder when `p` leads `s`. -/
def stripPre (p s : Str) : Option Str :=
  if p.isPrefixOf s then some (s.drop p.length) else none

/-- Model of `std::net::IpAddr` values.  The claims treat IP-address
parsing as a parameter, so only decidable equality of addresses is used. -/
structure IpAddr where
  isV6 : Bool
  segs : List Nat
deriving DecidableEq

/-- Model of `http::HeaderValue`: the decoded text together with whether
`HeaderValue::to_str` succeeds on it (it fails on non-visible-ASCII bytes). -/
structure HeaderValue where
  text : Str
  isAscii : Bool
deriving DecidableEq

/-- `http::HeaderValue::to_str`, returning `none` where the Rust call errs. -/
def HeaderValue.toStr (v : HeaderValue) : Option Str :=
  if v.isAscii then some v.text else none

/-- Model of `http::HeaderMap`: a sequence of name/value entries; names
compare case-insensitively (header-name semantics). -/
structure HeaderMap where
  entries : List (Str × HeaderValue)
deriving DecidableEq

/-- `HeaderMap::get`: the first value whose name matches case-insensitively. -/
def HeaderMap.get (m : HeaderMap) (n : Str) : Option HeaderValue :=
  (m.entries.find? (fun p => decide (lowerStr p.1 = lowerStr n))).map Prod.snd

/-- `HeaderMap::remove`: drops every value stored under the name. -/
def HeaderMap.remove (m : HeaderMap) (n : Str) : HeaderMap :=
  ⟨m.entries.filter (fun p => decide (lowerStr p.1 ≠ lowerStr n))⟩

/-- `HeaderMap::insert`: replaces every value stored under the name with
the single new one. -/
def HeaderMap.insert (m : HeaderMap) (n : Str) (v : HeaderValue) : HeaderMap :=
  ⟨(m.remove n).entries ++ [(lowerStr n, v)]⟩

/-- Model of `http::Uri`, by its parts: optional scheme, optional
authority, optional path-and-query. -/
structure Uri where
  scheme : Option Str
  authority : Option Str
  pathAndQuery : Option Str
deriving DecidableEq

/-- `http::Uri::path`: the path portion of the path-and-query. -/
def Uri.path (u : Uri) : Str :=
  match u.pathAndQuery with
  | some pq => pq.takeWhile (fun c => decide (c ≠ '?'))
  | none => []

/-- Host portion of an authority string: drop any userinfo (through the
last `@`), then drop any `:port` (bracketed IPv6 hosts keep the brackets). -/
def authorityHost (a : Str) : Str :=
  let h := if a.contains '@' then (a.reverse.takeWhile (fun c => decide (c ≠ '@'))).reverse else a
  if h.head? = some '[' then h.takeWhile (fun c => decide (c ≠ ']')) ++ [']']
  else h.takeWhile (fun c => decide (c ≠ ':'))

/-- `http::Uri::host`: the host of the authority, when present. -/
def Uri.host (u : Uri) : Option Str := u.authority.map authorityHost

/-- Model of `http::Method`: the method token bytes. -/
abbrev Method := Str

/-- Valid HTTP token bytes for method names (`http::method`): ASCII
letters, digits, and the token punctuation set. -/
def isMethodChar (c : Char) : Bool :=
  (48 ≤ c.toNat && c.toNat ≤ 57) || (65 ≤ c.toNat && c.toNat ≤ 90) ||
  (97 ≤ c.toNat && c.toNat ≤ 122) ||
  c.toNat ∈ [33, 35, 36, 37, 38, 39, 42, 43, 45, 46, 94, 95, 96, 124, 126]

/-- `http::Method::from_bytes`: succeeds exactly on non-empty token strings
(standard method names are token strings and are kept verbatim). -/
def Method.fromBytes (s : Str) : Option Method :=
  if s ≠ [] ∧ s.all isMethodChar then some s else none

/-- Valid `http::HeaderName` bytes: the same token set (uppercase letters
are accepted and normalized to lowercase). -/
def isHeaderNameChar (c : Char) : Bool := isMethodChar c

/-- `http::header::HeaderName::from_str`: succeeds on non-empty token
strings and lowercases the name. -/
def HeaderName.fromStr (s : Str) : Option Str :=
  if s ≠ [] ∧ s.all isHeaderNameChar then some (lowerStr s) else none

/-- An inbound HTTP request as the routed code observes it. -/
structure Request where
  method : Method
  uri : Uri
  headers : HeaderMap
deriving DecidableEq

/-! ## Configuration descriptors (src/config.rs) -/

/-- `config::HeaderMatch`. -/
structure HeaderMatch where
  name : Str
  value : Str
deriving DecidableEq

/-- `config::Matchers`.  The `path_prefix` field is named `pathPre` here. -/
structure Matchers where
  hosts : Option (List Str)
  pathPre : Option Str
  methods : Option (List Str)
  headers : Option (List HeaderMatch)
deriving DecidableEq

/-- `config::Upstream`: the tagged upstream strategy variants. -/
inductive Upstream
  | single (target : Str)
  | roundRobin (targets : List Str)
  | leastLatency (targets : List Str)
  | hashed (targets : List Str) (key : Str)
deriving DecidableEq

/-- `Upstream::single_target`. -/
def Upstream.singleTarget : Upstream → Option Str
  | .single target => some target
  | _ => none

/-- `config::Route`, restricted to the fields the router compiles.  The
`request_timeout()` derived from the filter list is carried directly as
`requestTimeout` (seconds); the filter list itself is not consulted
anywhere else on the verified paths. -/
structure Route where
  name : Str
  matchers : Matchers
  upstream : Upstream
  requestTimeout : Option Nat
deriving DecidableEq

/-! ## Route compilation and matching (src/router.rs) -/

/-- `router::HostMatcher`. -/
inductive HostMatcher
  | any
  | exact (value : Str)
  | wildcard (suffix : Str)
  | ip (expected : IpAddr)
deriving DecidableEq

/-- `HostMatcher::new`: `*` is Any; a pattern parsing as an IP address is
Ip; a `*.`-led pattern is Wildcard on the remaining suffix; anything else
is Exact.  Every branch returns `ok`.  `ipParse` stands for
`str::parse::<IpAddr>`. -/
def HostMatcher.new (ipParse : Str → Option IpAddr) (pattern : Str) :
    Except Str HostMatcher :=
  if pattern = str "*" then .ok .any
  else
    match ipParse pattern with
    | some addr => .ok (.ip addr)
    | none =>
      match stripPre (str "*.") pattern with
      | some stripped => .ok (.wildcard stripped)
      | none => .ok (.exact pattern)

/-- `HostMatcher::matches`. -/
def HostMatcher.matches (ipParse : Str → Option IpAddr) :
    HostMatcher → Str → Bool
  | .any, _ => true
  | .exact value, host => eqIgnoreAsciiCase host value
  | .wildcard suffix, host => (lowerStr suffix).isSuffixOf (lowerStr host)
  | .ip expected, host =>
    match ipParse host with
    | some addr => decide (addr = expected)
    | none => false

/-- `router::HeaderPredicate`. -/
structure HeaderPredicate where
  name : Str
  value : Str
deriving DecidableEq

/-- `HeaderPredicate::matches`: the first stored value for the name must
decode and equal the expected value exactly. -/
def HeaderPredicate.matches (p : HeaderPredicate) (headers : HeaderMap) : Bool :=
  match (headers.get p.name).bind HeaderValue.toStr with
  | some actual => decide (actual = p.value)
  | none => false

/-- `HeaderPredicate::try_from`. -/
def HeaderPredicate.tryFrom (h : HeaderMatch) : Except Str HeaderPredicate :=
  match HeaderName.fromStr h.name with
  | some n => .ok ⟨n, h.value⟩
  | none => .error (str "invalid header name")

/-- `router::RouteMatchers`. -/
structure RouteMatchers where
  hosts : List HostMatcher
  pathPre : Option Str
  methods : Option (List Method)
  headers : List HeaderPredicate
deriving DecidableEq

/-- `RouteMatchers::matches`: host list (empty list passes), then path
prefix, then allowed methods, then header predicates; `&&` short-circuits
exactly as the early returns do. -/
def RouteMatchers.matches (ipParse : Str → Option IpAddr) (m : RouteMatchers)
    (host path : Str) (method : Method) (headers : HeaderMap) : Bool :=
  (m.hosts.isEmpty || m.hosts.any (fun hm => hm.matches ipParse host)) &&
  (match m.pathPre with
   | some p => p.isPrefixOf path
   | none => true) &&
  (match m.methods with
   | some ms => ms.any (fun allowed => decide (allowed = method))
   | none => true) &&
  m.headers.all (fun p => p.matches headers)

/-- Rust `collect::<Result<Vec<_>,_>>`: stop at the first error, keep order. -/
def collectExcept {ε α : Type} : List (Except ε α) → Except ε (List α)
  | [] => .ok []
  | .error e :: _ => .error e
  | .ok a :: rest =>
    match collectExcept rest with
    | .ok tl => .ok (a :: tl)
    | .error e => .error e

/-- `RouteMatchers::try_from`: host patterns are compiled fallibly and
collected; unparsable method strings and header predicates are dropped by
`filter_map(.. .ok())`. -/
def RouteMatchers.tryFrom (ipParse : Str → Option IpAddr) (m : Matchers) :
    Except Str RouteMatchers :=
  match collectExcept ((m.hosts.getD []).map (HostMatcher.new ipParse)) with
  | .error e => .error e
  | .ok hosts =>
    .ok ⟨hosts, m.pathPre,
      m.methods.map (fun items => items.filterMap Method.fromBytes),
      (m.headers.getD []).filterMap (fun h => (HeaderPredicate.tryFrom h).toOption)⟩

/-- `router::UpstreamEndpoint`. -/
structure UpstreamEndpoint where
  uri : Uri
deriving DecidableEq

/-- `UpstreamEndpoint::try_from`: requires the single-target strategy and a
parsable target URI.  `uriFromStr` stands for `http::Uri::from_str`. -/
def UpstreamEndpoint.tryFrom (uriFromStr : Str → Option Uri) (u : Upstream) :
    Except Str UpstreamEndpoint :=
  match u.singleTarget with
  | none => .error (str "v0.0.1 only supports a single upstream target per route")
  | some target =>
    match uriFromStr target with
    | some uri => .ok ⟨uri⟩
    | none => .error (str "invalid uri")

/-- `router::RouteHandle`. -/
structure RouteHandle where
  name : Str
  matchers : RouteMatchers
  upstream : UpstreamEndpoint
  timeout : Option Nat
deriving DecidableEq

/-- `RouteHandle::try_from`: matchers are compiled first, then the
upstream endpoint. -/
def RouteHandle.tryFrom (ipParse : Str → Option IpAddr)
    (uriFromStr : Str → Option Uri) (route : Route) : Except Str RouteHandle :=
  match RouteMatchers.tryFrom ipParse route.matchers with
  | .error e => .error e
  | .ok m =>
    match UpstreamEndpoint.tryFrom uriFromStr route.upstream with
    | .error e => .error e
    | .ok u => .ok ⟨route.name, m, u, route.requestTimeout⟩

/-- `router::Router`. -/
structure Router where
  routes : List RouteHandle
deriving DecidableEq

/-- `Router::build`: compile every route descriptor, failing on the first
route that fails to compile. -/
def Router.build (ipParse : Str → Option IpAddr)
    (uriFromStr : Str → Option Uri) (routes : List Route) : Except Str Router :=
  match collectExcept (routes.map (RouteHandle.tryFrom ipParse uriFromStr)) with
  | .ok handles => .ok ⟨handles⟩
  | .error e => .error e

/-- `Router::select`: the first compiled route, in declaration order, whose
matchers hold for the request's host, path, method and headers. -/
def Router.select (ipParse : Str → Option IpAddr) (r : Router)
    (req : Request) (host : Str) : Option RouteHandle :=
  r.routes.find?
    (fun route => route.matchers.matches ipParse host req.uri.path req.method req.headers)

/-! ## Request pipeline helpers (src/proxy.rs) -/

/-- `http::Uri::from_parts`: a scheme requires both an authority and a
path-and-query; an authority with a path-and-query requires a scheme. -/
def uriFromParts (scheme authority pathAndQuery : Option Str) : Option Uri :=
  match scheme, authority, pathAndQuery with
  | some _, none, _ => none
  | some _, some _, none => none
  | none, some _, some _ => none
  | _, _, _ => some ⟨scheme, authority, pathAndQuery⟩

/-- `proxy::build_upstream_uri`: keep the base URI's scheme and authority,
replace its path-and-query with the incoming request's, defaulting to `/`
when the incoming request has none. -/
def buildUpstreamUri (base incoming : Uri) : Option Uri :=
  let pq :=
    match incoming.pathAndQuery with
    | some p => some p
    | none => some (str "/")
  uriFromParts base.scheme base.authority pq

/-- The six hop-by-hop header names removed by `proxy::clean_hop_by_hop`. -/
def hopHeaders : List Str :=
  [str "connection", str "keep-alive", str "proxy-authenticate",
   str "proxy-authorization", str "te", str "upgrade"]

/-- `proxy::clean_hop_by_hop`. -/
def cleanHopByHop (headers : HeaderMap) : HeaderMap :=
  hopHeaders.foldl HeaderMap.remove headers

/-- `proxy::rewrite_request`: set the target URI, drop hop-by-hop headers,
overwrite `host` with the base URI's authority when it has one, and set
`x-forwarded-proto: https`. -/
def rewriteRequest (req : Request) (base : Uri) (target : Uri) : Request :=
  let headers := cleanHopByHop req.headers
  let headers :=
    match base.authority with
    | some authority => headers.insert (str "host") ⟨authority, true⟩
    | none => headers
  let headers := headers.insert (str "x-forwarded-proto") ⟨str "https", true⟩
  ⟨req.method, target, headers⟩

/-- `proxy::extract_host`: prefer the request URI's host, then the decoded
`Host` header. -/
def extractHost (req : Request) : Option Str :=
  match req.uri.host with
  | some h => some h
  | none => (req.headers.get (str "host")).bind HeaderValue.toStr

/-- An HTTP response as observed at the pipeline boundary. -/
structure Response where
  status : Nat
  body : Str
deriving DecidableEq

/-- `proxy::response_with`. -/
def responseWith (status : Nat) (msg : Str) : Response := ⟨status, msg⟩

/-- `proxy::not_found`. -/
def notFound : Response := responseWith 404 (str "no matching route")

/-- `proxy::bad_gateway`. -/
def badGateway : Response := responseWith 502 (str "upstream error")

/-- `proxy::internal_error`. -/
def internalError : Response := responseWith 500 (str "internal error")

/-- Result of `proxy::proxy_to_upstream` for one request: an upstream
response, or a single failure class covering timeout and
transport/protocol errors. -/
inductive UpstreamResult
  | ok (resp : Response)
  | err
deriving DecidableEq

/-- Outcome labels of the `jester_requests_total` counter. -/
inductive Outcome
  | hit
  | miss
  | error
deriving DecidableEq

/-- `proxy::handle_request`: extract the host (empty when absent), select
a route; a miss increments the `miss` counter and answers 404; a hit
increments `hit` before forwarding, and a forwarding failure additionally
increments `error` and answers 502.  `forward` stands for the awaited
`proxy_to_upstream` call; the returned list records the counter
increments in program order. -/
def handleRequest (ipParse : Str → Option IpAddr) (router : Router)
    (req : Request) (forward : RouteHandle → UpstreamResult) :
    Response × List Outcome :=
  let host := (extractHost req).getD []
  match router.select ipParse req host with
  | none => (notFound, [Outcome.miss])
  | some route =>
    match forward route with
    | .ok resp => (resp, [Outcome.hit])
    | .err => (badGateway, [Outcome.hit, Outcome.error])

/-- The service closure in `proxy::handle_connection`: an `Err` from
`handle_request` is converted into the 500 response rather than being
returned to the connection. -/
def serviceCall (result : Except Str Response) : Response :=
  match result with
  | .ok resp => resp
  | .error _ => internalError

/-! ## Accept-loop and shutdown model (src/proxy.rs: serve_listener, Proxy::run)

A small-step system.  Each listener task owns a kernel accept queue and a
`done` bit (its loop has exited).  `tokio::select! \x7b biased; ... \x7d`
polls the shutdown branch first, so an accept step can only fire while the
flag is unset.  Connection handlers are spawned detached
(`tokio::spawn`), modelled as tasks with a remaining amount of service
work; `Proxy::run`'s `JoinSet` holds only the listener tasks, so the
`runReturn` step requires every listener to be done and nothing else. -/

/-- One listener task: pending kernel-queue connection ids and whether its
accept loop has exited. -/
structure ListenerSt where
  queue : List Nat
  done : Bool
deriving DecidableEq

/-- One spawned connection-handler task: its id and remaining service
work (`0` means served to completion). -/
structure ConnTask where
  id : Nat
  work : Nat
deriving DecidableEq

/-- Global state of the proxy runtime model. -/
structure SysState where
  flag : Bool
  listeners : List ListenerSt
  conns : List ConnTask
  runReturned : Bool
deriving DecidableEq

/-- Replace the listener at an index. -/
def setListener (ls : List ListenerSt) (i : Nat) (l : ListenerSt) : List ListenerSt :=
  ls.set i l

/-- Small-step transitions of the runtime. -/
inductive Step : SysState → SysState → Prop
  /-- Ctrl-C received: `shutdown_tx.send(true)`. -/
  | setFlag (s : SysState) :
      Step s ⟨true, s.listeners, s.conns, s.runReturned⟩
  /-- A listener's `select!` takes the accept branch: only possible while
  the flag is unset (the biased shutdown branch is polled first), pops the
  queued connection and spawns a detached handler task of some duration. -/
  | acceptConn (s : SysState) (i : Nat) (l : ListenerSt) (c : Nat)
      (rest : List Nat) (w : Nat)
      (hl : s.listeners.get? i = some l)
      (hflag : s.flag = false)
      (hdone : l.done = false)
      (hq : l.queue = c :: rest) :
      Step s ⟨s.flag, setListener s.listeners i ⟨rest, false⟩,
        s.conns ++ [⟨c, w⟩], s.runReturned⟩
  /-- A listener's `select!` takes the shutdown branch and the loop exits. -/
  | shutdownBreak (s : SysState) (i : Nat) (l : ListenerSt)
      (hl : s.listeners.get? i = some l)
      (hflag : s.flag = true)
      (hdone : l.done = false) :
      Step s ⟨s.flag, setListener s.listeners i ⟨l.queue, true⟩,
        s.conns, s.runReturned⟩
  /-- A spawned connection-handler task makes progress. -/
  | connStep (s : SysState) (j : Nat) (t : ConnTask)
      (ht : s.conns.get? j = some t)
      (hw : t.work ≠ 0) :
      Step s ⟨s.flag, s.listeners, s.conns.set j ⟨t.id, t.work - 1⟩, s.runReturned⟩
  /-- `Proxy::run` returns: its `JoinSet` holds exactly the listener
  tasks, so this only requires every accept loop to have exited. -/
  | runReturn (s : SysState)
      (hall : ∀ l ∈ s.listeners, l.done = true)
      (hr : s.runReturned = false) :
      Step s ⟨s.flag, s.listeners, s.conns, true⟩

/-- Reachability in the runtime model. -/
def Reachable : SysState → SysState → Prop := Relation.ReflTransGen Step

/-! ## Concrete fixtures for witnesses and counterexamples -/

/-- Stand-in for std IP-address parsing at hostname strings that are not
IP literals: it returns `none` on each of them. -/
def ipParseNone : Str → Option IpAddr := fun _ => none

/-- Stand-in for `http::Uri::from_str` at the single upstream target
string used by the fixtures below. -/
def uriParse0 : Str → Option Uri := fun s =>
  if s = str "http://127.0.0.1:9000" then
    some ⟨some (str "http"), some (str "127.0.0.1:9000"), some (str "/")⟩
  else none

/-- A route whose method list contains a string that is not a valid HTTP
method token (it contains spaces); its upstream target parses fine. -/
def routeBadMethod : Route :=
  ⟨str "api", ⟨some [str "*"], none, some [str "B A D"], none⟩,
    .single (str "http://127.0.0.1:9000"), none⟩

def exampleUpstreamBase : Uri :=
  ⟨some (str "http"), some (str "127.0.0.1:9000"), some (str "/ignored-path")⟩

def exampleIncomingUri : Uri := ⟨none, none, some (str "/api/x?y=1")⟩

def exampleTargetUri : Uri :=
  ⟨some (str "http"), some (str "127.0.0.1:9000"), some (str "/api/x?y=1")⟩

def witnessRouteA : RouteHandle :=
  ⟨str "a", ⟨[HostMatcher.any], some (str "/api"), none, []⟩, ⟨exampleUpstreamBase⟩, none⟩

def witnessRouteB : RouteHandle :=
  ⟨str "b", ⟨[HostMatcher.any], none, none, []⟩, ⟨exampleUpstreamBase⟩, none⟩

def witnessRouter : Router := ⟨[witnessRouteA, witnessRouteB]⟩

def emptyRouter : Router := ⟨[]⟩

def catchAllRoute : RouteHandle :=
  ⟨str "all", ⟨[HostMatcher.any], none, none, []⟩, ⟨exampleUpstreamBase⟩, none⟩

def catchAllRouter : Router := ⟨[catchAllRoute]⟩

def witnessReq : Request := ⟨str "GET", ⟨none, none, some (str "/api/users")⟩, ⟨[]⟩⟩

/-- A request carrying the client's `Host` header. -/
def reqWithClientHost : Request :=
  ⟨str "GET", ⟨none, none, some (str "/x")⟩,
    ⟨[(str "host", ⟨str "client.example", true⟩)]⟩⟩

/-- An upstream base URI without an authority (`/up` parses as a
path-only URI and passes configuration validation). -/
def baseNoAuthority : Uri := ⟨none, none, some (str "/up")⟩

def targetNoAuthority : Uri := ⟨none, none, some (str "/x")⟩

/-- Shutdown-model trace: one listener with one queued connection. -/
def c8s0 : SysState := ⟨false, [⟨[7], false⟩], [], false⟩

/-- After accepting connection 7 (its handler needs 2 units of work). -/
def c8s1 : SysState := ⟨false, [⟨[], false⟩], [⟨7, 2⟩], false⟩

/-- After the shutdown flag is set. -/
def c8s2 : SysState := ⟨true, [⟨[], false⟩], [⟨7, 2⟩], false⟩

/-- After the listener's accept loop observes the flag and exits. -/
def c8s3 : SysState := ⟨true, [⟨[], true⟩], [⟨7, 2⟩], false⟩

/-- After `Proxy::run` returns: the connection task still has work left. -/
def c8s4 : SysState := ⟨true, [⟨[], true⟩], [⟨7, 2⟩], true⟩

/-! ## Spec-side definitions

Definitions below follow the specification's words, for comparison with
the definitions above, which were translated from the source. -/

/-- The spec's wildcard-host condition: the host ends with the suffix,
compared case-insensitively. -/
def endsWithCI (host suffix : Str) : Bool :=
  decide (suffix.length ≤ host.length) &&
  eqIgnoreAsciiCase (host.drop (host.length - suffix.length)) suffix

/-! ## Helper lemmas -/

lemma toNat_ofNat_of_lt {n : Nat} (h : n < 55296) : (Char.ofNat n).toNat = n := by
  have hv : n.isValidChar := Or.inl h
  rw [Char.ofNat, dif_pos hv]
  simp [Char.ofNatAux, Char.toNat, UInt32.toNat]

lemma asciiLower_toNat_of_upper {c : Char} (h : 65 ≤ c.toNat ∧ c.toNat ≤ 90) :
    (asciiLower c).toNat = c.toNat + 32 := by
  rw [asciiLower, if_pos h]
  exact toNat_ofNat_of_lt (by omega)

lemma asciiLower_idem (c : Char) : asciiLower (asciiLower c) = asciiLower c := by
  by_cases h : 65 ≤ c.toNat ∧ c.toNat ≤ 90
  · have h1 : (asciiLower c).toNat = c.toNat + 32 := asciiLower_toNat_of_upper h
    have h2 : ¬ (65 ≤ (asciiLower c).toNat ∧ (asciiLower c).toNat ≤ 90) := by omega
    rw [asciiLower, if_neg h2]
  · have hc : asciiLower c = c := by rw [asciiLower, if_neg h]
    rw [hc, hc]

lemma lowerStr_idem (s : Str) : lowerStr (lowerStr s) = lowerStr s := by
  induction s with
  | nil => rfl
  | cons c cs ih =>
    simp only [lowerStr, List.map_cons] at ih ⊢
    rw [asciiLower_idem, ih]

lemma lowerStr_length (s : Str) : (lowerStr s).length = s.length := by
  simp [lowerStr]

lemma lowerStr_drop (s : Str) (k : Nat) :
    lowerStr (s.drop k) = (lowerStr s).drop k := by
  simp [lowerStr, List.map_drop]

/-- `stripPre p s` succeeds exactly when `s` is `p` followed by the rest. -/
lemma stripPre_eq_some {p s r : Str} : stripPre p s = some r ↔ s = p ++ r := by
  unfold stripPre
  constructor
  · intro h
    by_cases hp : p.isPrefixOf s
    · rw [if_pos hp] at h
      obtain ⟨t, ht⟩ := (List.isPrefixOf_iff_prefix.mp hp)
      injection h with h
      subst h
      rw [← ht, List.drop_left]
    · rw [if_neg hp] at h
      exact absurd h (by simp)
  · intro h
    subst h
    rw [if_pos (List.isPrefixOf_iff_prefix.mpr ⟨r, rfl⟩), List.drop_left]

/-- `find?` returns the first element satisfying the predicate. -/
lemma find?_first {α : Type} (p : α → Bool) (l : List α) (a : α)
    (h : l.find? p = some a) :
    ∃ i : Fin l.length, l.get i = a ∧ p a = true ∧
      ∀ j : Fin l.length, j.val < i.val → p (l.get j) = false := by
  induction l with
  | nil => simp [List.find?] at h
  | cons x xs ih =>
    by_cases hx : p x
    · rw [List.find?_cons_of_pos _ hx] at h
      injection h with h
      subst h
      exact ⟨⟨0, Nat.succ_pos _⟩, rfl, hx, fun j hj => absurd hj (Nat.not_lt_zero _)⟩
    · rw [List.find?_cons_of_neg _ hx] at h
      obtain ⟨i, hget, hpa, hfirst⟩ := ih h
      refine ⟨⟨i.val + 1, Nat.succ_lt_succ i.isLt⟩, ?_, hpa, ?_⟩
      · simpa using hget
      · intro j hj
        match j with
        | ⟨0, _⟩ => simpa using hx
        | ⟨k + 1, hk⟩ =>
          have hki : k < i.val := Nat.lt_of_succ_lt_succ hj
          simpa using hfirst ⟨k, Nat.lt_of_succ_lt_succ hk⟩ hki

/-- `collectExcept` succeeds exactly when every element is `ok`. -/
lemma collectExcept_ok_iff {ε α : Type} (xs : List (Except ε α)) :
    (∃ r, collectExcept xs = .ok r) ↔ ∀ x ∈ xs, ∃ a, x = .ok a := by
  induction xs with
  | nil => simp [collectExcept]
  | cons x xs ih =>
    cases x with
    | error e => simp [collectExcept]
    | ok a =>
      cases hc : collectExcept xs with
      | ok tl =>
        simp only [collectExcept, hc]
        simp only [List.mem_cons]
        constructor
        · intro _ y hy
          rcases hy with hy | hy
          · exact ⟨a, hy⟩
          · exact ih.mp ⟨tl, hc⟩ y hy
        · intro _
          exact ⟨a :: tl, rfl⟩
      | error e =>
        simp only [collectExcept, hc]
        constructor
        · rintro ⟨r, hr⟩
          exact absurd hr (by simp)
        · intro hall
          obtain ⟨r, hr⟩ := ih.mpr (fun y hy => hall y (List.mem_cons_of_mem _ hy))
          rw [hr] at hc
          exact absurd hc (by simp)

/-- When `collectExcept` succeeds, the inputs are exactly the `ok`s of the
results, in order. -/
lemma collectExcept_ok_map {ε α : Type} {xs : List (Except ε α)} {r : List α}
    (h : collectExcept xs = .ok r) : xs = r.map Except.ok := by
  induction xs generalizing r with
  | nil =>
    have h2 : (Except.ok [] : Except ε (List α)) = .ok r := h
    injection h2 with h2
    subst h2
    rfl
  | cons x xs ih =>
    cases x with
    | error e => simp [collectExcept] at h
    | ok a =>
      cases hc : collectExcept xs with
      | ok tl =>
        rw [collectExcept, hc] at h
        injection h with h
        subst h
        simp [ih hc]
      | error e => rw [collectExcept, hc] at h; exact absurd h (by simp)

lemma HeaderMap.get_remove_of_eq (m : HeaderMap) {n q : Str}
    (h : lowerStr q = lowerStr n) : (m.remove n).get q = none := by
  simp only [HeaderMap.get, HeaderMap.remove, Option.map_eq_none', List.find?_eq_none]
  intro p hp
  have hpn := List.of_mem_filter hp
  simp only [decide_eq_true_eq] at hpn ⊢
  rw [h]
  exact hpn

lemma HeaderMap.get_remove_of_ne (m : HeaderMap) {n q : Str}
    (h : lowerStr q ≠ lowerStr n) : (m.remove n).get q = m.get q := by
  obtain ⟨l⟩ := m
  simp only [HeaderMap.get, HeaderMap.remove]
  congr 1
  induction l with
  | nil => rfl
  | cons p l ih =>
    by_cases hp : lowerStr p.1 = lowerStr q
    · have hpn : lowerStr p.1 ≠ lowerStr n := by rw [hp]; exact h
      rw [List.filter_cons_of_pos (by simpa using hpn)]
      rw [List.find?_cons_of_pos _ (by simpa using hp),
        List.find?_cons_of_pos _ (by simpa using hp)]
    · by_cases hpn : lowerStr p.1 = lowerStr n
      · rw [List.filter_cons_of_neg (by simpa using hpn)]
        rw [List.find?_cons_of_neg _ (by simpa using hp)]
        exact ih
      · rw [List.filter_cons_of_pos (by simpa using hpn)]
        rw [List.find?_cons_of_neg _ (by simpa using hp),
          List.find?_cons_of_neg _ (by simpa using hp)]
        exact ih

lemma HeaderMap.get_insert_of_eq (m : HeaderMap) {n q : Str} (v : HeaderValue)
    (h : lowerStr q = lowerStr n) : (m.insert n v).get q = some v := by
  have hrem : ((m.remove n).entries.find?
      (fun p => decide (lowerStr p.1 = lowerStr q))) = none :=
    Option.map_eq_none'.mp (m.get_remove_of_eq h)
  simp only [HeaderMap.insert, HeaderMap.get, List.find?_append, hrem, Option.none_or]
  rw [List.find?_cons_of_pos _ (by simp [lowerStr_idem, h])]
  rfl

lemma HeaderMap.get_insert_of_ne (m : HeaderMap) {n q : Str} (v : HeaderValue)
    (h : lowerStr q ≠ lowerStr n) : (m.insert n v).get q = m.get q := by
  have hone : (([((lowerStr n : Str), v)]).find?
      (fun p => decide (lowerStr p.1 = lowerStr q))) = none := by
    rw [List.find?_cons_of_neg _ (by simp [lowerStr_idem]; intro he; exact h he.symm)]
    rfl
  simp only [HeaderMap.insert, HeaderMap.get, List.find?_append, hone, Option.or_none]
  exact m.get_remove_of_ne h

lemma HeaderMap.get_foldl_remove_none (names : List Str) (m : HeaderMap) (q : Str)
    (h : m.get q = none) : (names.foldl HeaderMap.remove m).get q = none := by
  induction names generalizing m with
  | nil => exact h
  | cons y names ih =>
    simp only [List.foldl_cons]
    apply ih
    by_cases hy : lowerStr q = lowerStr y
    · exact m.get_remove_of_eq hy
    · rw [m.get_remove_of_ne hy]; exact h

lemma HeaderMap.get_foldl_remove_of_mem (names : List Str) (m : HeaderMap) (q : Str)
    (h : ∃ x ∈ names, lowerStr q = lowerStr x) :
    (names.foldl HeaderMap.remove m).get q = none := by
  induction names generalizing m with
  | nil => obtain ⟨x, hx, _⟩ := h; cases hx
  | cons y names ih =>
    simp only [List.foldl_cons]
    obtain ⟨x, hx, hqx⟩ := h
    rcases List.mem_cons.mp hx with rfl | hmem
    · exact HeaderMap.get_foldl_remove_none names _ q (m.get_remove_of_eq hqx)
    · exact ih (m.remove y) ⟨x, hmem, hqx⟩

lemma HeaderMap.get_foldl_remove_of_not_mem (names : List Str) (m : HeaderMap) (q : Str)
    (h : ∀ x ∈ names, lowerStr q ≠ lowerStr x) :
    (names.foldl HeaderMap.remove m).get q = m.get q := by
  induction names generalizing m with
  | nil => rfl
  | cons y names ih =>
    simp only [List.foldl_cons]
    rw [ih (m.remove y) (fun x hx => h x (List.mem_cons_of_mem _ hx))]
    exact m.get_remove_of_ne (h y (List.mem_cons_self _ _))

/-- The source's lowered `ends_with` test agrees with the spec's
case-insensitive suffix condition. -/
lemma isSuffixOf_lower_eq_endsWithCI (host suffix : Str) :
    (lowerStr suffix).isSuffixOf (lowerStr host) = endsWithCI host suffix := by
  rw [Bool.eq_iff_iff]
  simp only [List.isSuffixOf_iff_suffix, endsWithCI, Bool.and_eq_true, decide_eq_true_eq,
    eqIgnoreAsciiCase, List.suffix_iff_eq_drop, lowerStr_length, ← lowerStr_drop]
  constructor
  · intro he
    have h1 := congrArg List.length he
    simp only [lowerStr_length, List.length_drop] at h1
    exact ⟨by omega, he.symm⟩
  · rintro ⟨hle, he⟩
    exact he.symm

lemma hostMatcherNew_ok (ipParse : Str → Option IpAddr) (pattern : Str) :
    ∃ m, HostMatcher.new ipParse pattern = .ok m := by
  unfold HostMatcher.new
  by_cases h1 : pattern = str "*"
  · rw [if_pos h1]; exact ⟨_, rfl⟩
  · rw [if_neg h1]
    cases h2 : ipParse pattern with
    | some addr => exact ⟨_, rfl⟩
    | none =>
      cases h3 : stripPre (str "*.") pattern with
      | some stripped => exact ⟨_, rfl⟩
      | none => exact ⟨_, rfl⟩

lemma routeMatchersTryFrom_ok (ipParse : Str → Option IpAddr) (m : Matchers) :
    ∃ rm, RouteMatchers.tryFrom ipParse m = .ok rm := by
  unfold RouteMatchers.tryFrom
  have hall : ∀ x ∈ (m.hosts.getD []).map (HostMatcher.new ipParse), ∃ a, x = .ok a := by
    intro x hx
    simp only [List.mem_map] at hx
    obtain ⟨p, _, hp⟩ := hx
    obtain ⟨mm, hmm⟩ := hostMatcherNew_ok ipParse p
    exact ⟨mm, by rw [← hp, hmm]⟩
  obtain ⟨hs, hhs⟩ := (collectExcept_ok_iff _).mpr hall
  rw [hhs]
  exact ⟨_, rfl⟩

lemma upstreamTryFrom_ok_iff (uriFromStr : Str → Option Uri) (u : Upstream) :
    (∃ e, UpstreamEndpoint.tryFrom uriFromStr u = .ok e) ↔
      (∃ t uri, u.singleTarget = some t ∧ uriFromStr t = some uri) := by
  unfold UpstreamEndpoint.tryFrom
  cases ht : u.singleTarget with
  | none => simp
  | some t =>
    cases hu : uriFromStr t with
    | none => simp [hu]
    | some uri => simp [hu]

lemma routeHandleTryFrom_ok_iff (ipParse : Str → Option IpAddr)
    (uriFromStr : Str → Option Uri) (route : Route) :
    (∃ h, RouteHandle.tryFrom ipParse uriFromStr route = .ok h) ↔
      (∃ e, UpstreamEndpoint.tryFrom uriFromStr route.upstream = .ok e) := by
  unfold RouteHandle.tryFrom
  obtain ⟨rm, hrm⟩ := routeMatchersTryFrom_ok ipParse route.matchers
  rw [hrm]
  cases he : UpstreamEndpoint.tryFrom uriFromStr route.upstream <;> simp

lemma routerBuild_ok_iff (ipParse : Str → Option IpAddr)
    (uriFromStr : Str → Option Uri) (routes : List Route) :
    (∃ r, Router.build ipParse uriFromStr routes = .ok r) ↔
      ∀ route ∈ routes, ∃ h, RouteHandle.tryFrom ipParse uriFromStr route = .ok h := by
  unfold Router.build
  cases hc : collectExcept (routes.map (RouteHandle.tryFrom ipParse uriFromStr)) with
  | ok handles =>
    constructor
    · intro _ route hroute
      exact (collectExcept_ok_iff _).mp ⟨handles, hc⟩ _ (List.mem_map_of_mem _ hroute)
    · intro _
      exact ⟨⟨handles⟩, rfl⟩
  | error e =>
    constructor
    · rintro ⟨r, hr⟩
      exact absurd hr (by simp)
    · intro hall
      have hmap : ∀ x ∈ routes.map (RouteHandle.tryFrom ipParse uriFromStr), ∃ a, x = .ok a := by
        intro x hx
        obtain ⟨route, hroute, rfl⟩ := List.mem_map.mp hx
        exact hall route hroute
      obtain ⟨r, hr⟩ := (collectExcept_ok_iff _).mpr hmap
      rw [hr] at hc
      exact absurd hc (by simp)

/-- Inversion for the model of `Uri::from_parts`. -/
lemma uriFromParts_some {s a pq : Option Str} {u : Uri}
    (h : uriFromParts s a pq = some u) : u = ⟨s, a, pq⟩ := by
  unfold uriFromParts at h
  cases s <;> cases a <;> cases pq <;> simp_all

/-- A step can grow the set of spawned connection tasks only while the
shutdown flag is unset. -/
lemma step_accept_flag {s t : SysState} (h : Step s t)
    (hlt : s.conns.length < t.conns.length) : s.flag = false := by
  cases h with
  | setFlag => exact absurd hlt (by simp)
  | acceptConn i l c rest w hl hflag hdone hq => exact hflag
  | shutdownBreak i l hl hflag hdone => exact absurd hlt (by simp)
  | connStep j ct ht hw => exact absurd hlt (by simp [List.length_set])
  | runReturn hall hr => exact absurd hlt (by simp)

/-- Once set, the shutdown flag stays set. -/
lemma step_flag_true {s t : SysState} (h : Step s t) (hf : s.flag = true) :
    t.flag = true := by
  cases h with
  | setFlag => rfl
  | acceptConn i l c rest w hl hflag hdone hq => rw [hflag] at hf; cases hf
  | shutdownBreak i l hl hflag hdone => exact hf
  | connStep j ct ht hw => exact hf
  | runReturn hall hr => exact hf

/-- With the flag set, no step changes the number of spawned connection
tasks' entries beyond the existing ones. -/
lemma step_conns_of_flag {s t : SysState} (h : Step s t) (hf : s.flag = true) :
    t.conns.length = s.conns.length := by
  cases h with
  | setFlag => rfl
  | acceptConn i l c rest w hl hflag hdone hq => rw [hflag] at hf; cases hf
  | shutdownBreak i l hl hflag hdone => rfl
  | connStep j ct ht hw => simp [List.length_set]
  | runReturn hall hr => rfl

/-- `Proxy::run` can only return once every listener's loop has exited. -/
lemma step_run_return {s t : SysState} (h : Step s t)
    (hr : s.runReturned = false) (hr2 : t.runReturned = true) :
    ∀ l ∈ s.listeners, l.done = true := by
  cases h with
  | setFlag => rw [hr] at hr2; cases hr2
  | acceptConn i l c rest w hl hflag hdone hq => rw [hr] at hr2; cases hr2
  | shutdownBreak i l hl hflag hdone => rw [hr] at hr2; cases hr2
  | connStep j ct ht hw => rw [hr] at hr2; cases hr2
  | runReturn hall hrr => exact hall

/-- Decomposition of `RouteMatchers::matches` into its four conditions. -/
lemma routeMatchers_matches_iff (ipParse : Str → Option IpAddr)
    (m : RouteMatchers) (host path : Str) (method : Method) (headers : HeaderMap) :
    RouteMatchers.matches ipParse m host path method headers = true ↔
      ((m.hosts = [] ∨ ∃ hm ∈ m.hosts, hm.matches ipParse host = true)
        ∧ (∀ p, m.pathPre = some p → p.isPrefixOf path = true)
        ∧ (∀ ms, m.methods = some ms → method ∈ ms)
        ∧ (∀ hp ∈ m.headers, hp.matches headers = true)) := by
  unfold RouteMatchers.matches
  simp only [Bool.and_eq_true, Bool.or_eq_true, List.any_eq_true, List.all_eq_true,
    List.isEmpty_iff]
  cases m.pathPre <;> cases m.methods <;> simp <;> tauto

/-! ## Claim theorems -/

/-- C1: `Router::select` is deterministic and returns the first compiled
route, in declaration order, whose matchers all hold for the request —
host matchers, path prefix, allowed methods and header predicates, the
four conditions decomposed in the last conjunct; when no compiled route's
matchers all hold, it returns `none`. -/
theorem select_returns_first_matching_route (ipParse : Str → Option IpAddr)
    (r : Router) (req : Request) (host : Str) :
    (∀ route, Router.select ipParse r req host = some route →
      ∃ i : Fin r.routes.length, r.routes.get i = route ∧
        RouteMatchers.matches ipParse route.matchers host req.uri.path req.method
          req.headers = true ∧
        ∀ j : Fin r.routes.length, j.val < i.val →
          RouteMatchers.matches ipParse (r.routes.get j).matchers host req.uri.path
            req.method req.headers = false)
    ∧ (Router.select ipParse r req host = none →
        ∀ route ∈ r.routes,
          RouteMatchers.matches ipParse route.matchers host req.uri.path req.method
            req.headers = false)
    ∧ (∀ m path method headers,
        RouteMatchers.matches ipParse m host path method headers = true ↔
          ((m.hosts = [] ∨ ∃ hm ∈ m.hosts, hm.matches ipParse host = true)
            ∧ (∀ p, m.pathPre = some p → p.isPrefixOf path = true)
            ∧ (∀ ms, m.methods = some ms → method ∈ ms)
            ∧ (∀ hp ∈ m.headers, hp.matches headers = true))) := by
  refine ⟨?_, ?_, fun m path method headers =>
    routeMatchers_matches_iff ipParse m host path method headers⟩
  · intro route hsel
    have hsel2 : r.routes.find?
        (fun route => RouteMatchers.matches ipParse route.matchers host req.uri.path
          req.method req.headers) = some route := hsel
    obtain ⟨i, hget, hp, hfirst⟩ := find?_first _ _ _ hsel2
    refine ⟨i, hget, by simpa using hp, ?_⟩
    intro j hj
    simpa using hfirst j hj
  · intro hsel route hroute
    have hsel2 : r.routes.find?
        (fun route => RouteMatchers.matches ipParse route.matchers host req.uri.path
          req.method req.headers) = none := hsel
    simpa using List.find?_eq_none.mp hsel2 route hroute

/-- C1 witness: on a concrete router whose first and second routes both
match the request, selection returns the first one, whose matchers hold. -/
theorem select_returns_first_matching_route_witness :
    Router.select ipParseNone witnessRouter witnessReq (str "h") = some witnessRouteA ∧
    RouteMatchers.matches ipParseNone witnessRouteA.matchers (str "h")
      witnessReq.uri.path witnessReq.method witnessReq.headers = true := by
  have hsel : Router.select ipParseNone witnessRouter witnessReq (str "h") =
      some witnessRouteA := by decide
  obtain ⟨i, hget, hp, hfirst⟩ :=
    (select_returns_first_matching_route ipParseNone witnessRouter witnessReq
      (str "h")).1 witnessRouteA hsel
  exact ⟨hsel, hp⟩

/-- C2 counterexample: a route whose method list holds the string
`B A D` — unparsable as an HTTP method — still compiles, so
`Router::build` does not return an error on unparsable method strings. -/
theorem build_succeeds_despite_unparsable_method :
    Method.fromBytes (str "B A D") = none ∧
    (Router.build ipParseNone uriParse0 [routeBadMethod]).isOk = true :=
  ⟨by decide, by decide⟩

/-- C2 (amended): `Router::build` fails exactly when some route's
upstream is not a single-target upstream whose target URI parses;
otherwise it compiles every route descriptor in order.  Unparsable method
strings are silently dropped from the compiled method set, never an
error. -/
theorem build_error_characterization (ipParse : Str → Option IpAddr)
    (uriFromStr : Str → Option Uri) (routes : List Route) :
    ((∃ r, Router.build ipParse uriFromStr routes = .ok r) ↔
      ∀ route ∈ routes, ∃ t uri,
        route.upstream.singleTarget = some t ∧ uriFromStr t = some uri)
    ∧ (∀ r, Router.build ipParse uriFromStr routes = .ok r →
        routes.map (RouteHandle.tryFrom ipParse uriFromStr) = r.routes.map Except.ok)
    ∧ (∀ mt rm, RouteMatchers.tryFrom ipParse mt = .ok rm →
        rm.methods = mt.methods.map (fun items => items.filterMap Method.fromBytes)) := by
  refine ⟨?_, ?_, ?_⟩
  · rw [routerBuild_ok_iff]
    constructor
    · intro hall route hroute
      exact (upstreamTryFrom_ok_iff _ _).mp
        ((routeHandleTryFrom_ok_iff _ _ _).mp (hall route hroute))
    · intro hall route hroute
      exact (routeHandleTryFrom_ok_iff _ _ _).mpr
        ((upstreamTryFrom_ok_iff _ _).mpr (hall route hroute))
  · intro r hr
    unfold Router.build at hr
    cases hc : collectExcept (routes.map (RouteHandle.tryFrom ipParse uriFromStr)) with
    | ok handles =>
      rw [hc] at hr
      have hr2 : (Except.ok (Router.mk handles) : Except Str Router) = .ok r := hr
      injection hr2 with hr2
      rw [← hr2]
      exact collectExcept_ok_map hc
    | error e =>
      rw [hc] at hr
      have hr2 : (Except.error e : Except Str Router) = .ok r := hr
      cases hr2
  · intro mt rm hrm
    unfold RouteMatchers.tryFrom at hrm
    cases hc : collectExcept ((mt.hosts.getD []).map (HostMatcher.new ipParse)) with
    | ok hosts =>
      rw [hc] at hrm
      have hrm2 : (Except.ok
          (⟨hosts, mt.pathPre,
            mt.methods.map (fun items => items.filterMap Method.fromBytes),
            (mt.headers.getD []).filterMap
              (fun h => (HeaderPredicate.tryFrom h).toOption)⟩ : RouteMatchers) :
          Except Str RouteMatchers) = .ok rm := hrm
      injection hrm2 with hrm2
      rw [← hrm2]
    | error e =>
      rw [hc] at hrm
      have hrm2 : (Except.error e : Except Str RouteMatchers) = .ok rm := hrm
      cases hrm2

/-- C2 (amended) witness: the bad-method route satisfies the upstream
condition, so the characterization yields its successful compilation. -/
theorem build_error_characterization_witness :
    ∃ r, Router.build ipParseNone uriParse0 [routeBadMethod] = .ok r :=
  (build_error_characterization ipParseNone uriParse0 [routeBadMethod]).1.mpr
    (by
      intro route hroute
      rcases List.mem_singleton.mp hroute with rfl
      exact ⟨str "http://127.0.0.1:9000",
        ⟨some (str "http"), some (str "127.0.0.1:9000"), some (str "/")⟩,
        rfl, by decide⟩)

/-- C3: the forwarding target keeps the upstream URI's scheme and
authority and takes the incoming request's path-and-query (the upstream's
own path component is discarded), defaulting to `/` when the incoming
request has no path-and-query; in particular base
`http://127.0.0.1:9000/ignored-path` with incoming `/api/x?y=1` yields
`http://127.0.0.1:9000/api/x?y=1`. -/
theorem upstream_uri_construction (base incoming target : Uri)
    (h : buildUpstreamUri base incoming = some target) :
    (target.scheme = base.scheme ∧ target.authority = base.authority ∧
      target.pathAndQuery = some ((incoming.pathAndQuery).getD (str "/")))
    ∧ buildUpstreamUri exampleUpstreamBase exampleIncomingUri = some exampleTargetUri := by
  constructor
  · cases hpq : incoming.pathAndQuery with
    | some p =>
      simp only [buildUpstreamUri, hpq] at h
      rw [uriFromParts_some h]
      simp [hpq]
    | none =>
      simp only [buildUpstreamUri, hpq] at h
      rw [uriFromParts_some h]
      simp [hpq]
  · decide

/-- C3 witness: the construction at the spec's concrete example. -/
theorem upstream_uri_construction_witness :
    exampleTargetUri.scheme = exampleUpstreamBase.scheme ∧
    exampleTargetUri.authority = exampleUpstreamBase.authority ∧
    exampleTargetUri.pathAndQuery = some ((exampleIncomingUri.pathAndQuery).getD (str "/")) :=
  (upstream_uri_construction exampleUpstreamBase exampleIncomingUri exampleTargetUri
    (by decide)).1

/-- C9: host-pattern compilation is total and never errs: `*` compiles to
Any, an IP-parsable pattern to Ip, a `*.`-led pattern to Wildcard on the
remaining suffix, and anything else (the empty string included) to Exact;
consequently matcher compilation never fails because of a host pattern. -/
theorem host_matcher_compilation_total (ipParse : Str → Option IpAddr) (pattern : Str) :
    (∃ m, HostMatcher.new ipParse pattern = .ok m)
    ∧ (pattern = str "*" → HostMatcher.new ipParse pattern = .ok .any)
    ∧ (∀ addr, pattern ≠ str "*" → ipParse pattern = some addr →
        HostMatcher.new ipParse pattern = .ok (.ip addr))
    ∧ (∀ rest, pattern ≠ str "*" → ipParse pattern = none → pattern = str "*." ++ rest →
        HostMatcher.new ipParse pattern = .ok (.wildcard rest))
    ∧ (pattern ≠ str "*" → ipParse pattern = none → (∀ rest, pattern ≠ str "*." ++ rest) →
        HostMatcher.new ipParse pattern = .ok (.exact pattern))
    ∧ (∀ m : Matchers, ∃ rm, RouteMatchers.tryFrom ipParse m = .ok rm) := by
  refine ⟨hostMatcherNew_ok ipParse pattern, ?_, ?_, ?_, ?_,
    routeMatchersTryFrom_ok ipParse⟩
  · intro h
    unfold HostMatcher.new
    rw [if_pos h]
  · intro addr hne hip
    unfold HostMatcher.new
    rw [if_neg hne, hip]
  · intro rest hne hip hpat
    unfold HostMatcher.new
    rw [if_neg hne, hip, stripPre_eq_some.mpr hpat]
  · intro hne hip hnw
    unfold HostMatcher.new
    rw [if_neg hne, hip]
    cases hs : stripPre (str "*.") pattern with
    | some rest => exact absurd (stripPre_eq_some.mp hs) (hnw rest)
    | none => rfl

/-- C9 witness: the wildcard branch at the concrete pattern `*.svc.local`. -/
theorem host_matcher_compilation_total_witness :
    HostMatcher.new ipParseNone (str "*.svc.local") = .ok (.wildcard (str "svc.local")) :=
  (host_matcher_compilation_total ipParseNone (str "*.svc.local")).2.2.2.1
    (str "svc.local") (by decide) rfl (by decide)

/-- C4 (amended): after rewriting, the six hop-by-hop headers are absent;
`Host` is overwritten with the upstream URI's authority whenever the
upstream URI has one, and left unchanged when it has none;
`x-forwarded-proto` is always `https`; every other header is unchanged;
the request target is the computed upstream URI. -/
theorem rewrite_request_headers (req : Request) (base target : Uri) :
    (∀ n ∈ hopHeaders, (rewriteRequest req base target).headers.get n = none)
    ∧ (∀ a, base.authority = some a →
        (rewriteRequest req base target).headers.get (str "host") = some ⟨a, true⟩)
    ∧ (base.authority = none →
        (rewriteRequest req base target).headers.get (str "host")
          = req.headers.get (str "host"))
    ∧ (rewriteRequest req base target).headers.get (str "x-forwarded-proto")
        = some ⟨str "https", true⟩
    ∧ (∀ n, (∀ x ∈ hopHeaders, lowerStr n ≠ lowerStr x) →
        lowerStr n ≠ lowerStr (str "host") →
        lowerStr n ≠ lowerStr (str "x-forwarded-proto") →
        (rewriteRequest req base target).headers.get n = req.headers.get n)
    ∧ (rewriteRequest req base target).uri = target := by
  have hsome : ∀ a, base.authority = some a →
      (rewriteRequest req base target).headers =
        ((cleanHopByHop req.headers).insert (str "host") ⟨a, true⟩).insert
          (str "x-forwarded-proto") ⟨str "https", true⟩ := by
    intro a hba
    simp [rewriteRequest, hba]
  have hnone : base.authority = none →
      (rewriteRequest req base target).headers =
        (cleanHopByHop req.headers).insert (str "x-forwarded-proto") ⟨str "https", true⟩ := by
    intro hba
    simp [rewriteRequest, hba]
  refine ⟨?_, ?_, ?_, ?_, ?_, rfl⟩
  · intro n hn
    have hnh : lowerStr n ≠ lowerStr (str "host") := by fin_cases hn <;> decide
    have hnx : lowerStr n ≠ lowerStr (str "x-forwarded-proto") := by fin_cases hn <;> decide
    cases hba : base.authority with
    | some a =>
      rw [hsome a hba, HeaderMap.get_insert_of_ne _ _ hnx,
        HeaderMap.get_insert_of_ne _ _ hnh, cleanHopByHop]
      exact HeaderMap.get_foldl_remove_of_mem _ _ _ ⟨n, hn, rfl⟩
    | none =>
      rw [hnone hba, HeaderMap.get_insert_of_ne _ _ hnx, cleanHopByHop]
      exact HeaderMap.get_foldl_remove_of_mem _ _ _ ⟨n, hn, rfl⟩
  · intro a hba
    rw [hsome a hba, HeaderMap.get_insert_of_ne _ _ (by decide),
      HeaderMap.get_insert_of_eq _ _ rfl]
  · intro hba
    rw [hnone hba, HeaderMap.get_insert_of_ne _ _ (by decide), cleanHopByHop]
    exact HeaderMap.get_foldl_remove_of_not_mem _ _ _ (by intro x hx; fin_cases hx <;> decide)
  · cases hba : base.authority with
    | some a => rw [hsome a hba, HeaderMap.get_insert_of_eq _ _ rfl]
    | none => rw [hnone hba, HeaderMap.get_insert_of_eq _ _ rfl]
  · intro n hhop hh hx
    cases hba : base.authority with
    | some a =>
      rw [hsome a hba, HeaderMap.get_insert_of_ne _ _ hx,
        HeaderMap.get_insert_of_ne _ _ hh, cleanHopByHop]
      exact HeaderMap.get_foldl_remove_of_not_mem _ _ _ hhop
    | none =>
      rw [hnone hba, HeaderMap.get_insert_of_ne _ _ hx, cleanHopByHop]
      exact HeaderMap.get_foldl_remove_of_not_mem _ _ _ hhop

/-- C4 (amended) witness: rewriting at a concrete request and the
concrete upstream base with authority `127.0.0.1:9000`. -/
theorem rewrite_request_headers_witness :
    (rewriteRequest reqWithClientHost exampleUpstreamBase exampleTargetUri).headers.get
      (str "host") = some ⟨str "127.0.0.1:9000", true⟩ ∧
    (rewriteRequest reqWithClientHost exampleUpstreamBase exampleTargetUri).headers.get
      (str "x-forwarded-proto") = some ⟨str "https", true⟩ ∧
    (rewriteRequest reqWithClientHost exampleUpstreamBase exampleTargetUri).headers.get
      (str "connection") = none :=
  ⟨(rewrite_request_headers reqWithClientHost exampleUpstreamBase exampleTargetUri).2.1
      (str "127.0.0.1:9000") rfl,
   (rewrite_request_headers reqWithClientHost exampleUpstreamBase exampleTargetUri).2.2.2.1,
   (rewrite_request_headers reqWithClientHost exampleUpstreamBase exampleTargetUri).1
      (str "connection") (by decide)⟩

/-- C4 counterexample: with an upstream URI that has no authority (the
target `/up` parses as a URI and passes configuration validation), the
`Host` header is not overwritten — the client's value survives. -/
theorem host_not_overwritten_without_authority :
    baseNoAuthority.authority = none ∧
    reqWithClientHost.headers.get (str "host") = some ⟨str "client.example", true⟩ ∧
    (rewriteRequest reqWithClientHost baseNoAuthority targetNoAuthority).headers.get
      (str "host") = some ⟨str "client.example", true⟩ :=
  ⟨rfl, by decide, by decide⟩

/-- C5: a route miss yields status 404 with body `no matching route` and
a `miss` counter increment; a matched route whose forward fails yields
status 502 with body `upstream error`; an internal failure surfacing at
the connection-layer service is converted into status 500 with body
`internal error` instead of being propagated. -/
theorem error_response_mapping (ipParse : Str → Option IpAddr) (router : Router)
    (req : Request) (forward : RouteHandle → UpstreamResult) :
    (Router.select ipParse router req ((extractHost req).getD []) = none →
      handleRequest ipParse router req forward
        = (⟨404, str "no matching route"⟩, [Outcome.miss]))
    ∧ (∀ route, Router.select ipParse router req ((extractHost req).getD []) = some route →
        forward route = .err →
        (handleRequest ipParse router req forward).1 = ⟨502, str "upstream error"⟩)
    ∧ (∀ e, serviceCall (.error e) = ⟨500, str "internal error"⟩) := by
  refine ⟨?_, ?_, fun e => rfl⟩
  · intro hsel
    simp [handleRequest, hsel, notFound, responseWith]
  · intro route hsel herr
    simp [handleRequest, hsel, herr, badGateway, responseWith]

/-- C5 witness: the three cases at concrete fixtures. -/
theorem error_response_mapping_witness :
    handleRequest ipParseNone emptyRouter witnessReq (fun _ => .err)
      = (⟨404, str "no matching route"⟩, [Outcome.miss])
    ∧ (handleRequest ipParseNone catchAllRouter witnessReq (fun _ => .err)).1
      = ⟨502, str "upstream error"⟩
    ∧ serviceCall (.error (str "boom")) = ⟨500, str "internal error"⟩ :=
  ⟨(error_response_mapping ipParseNone emptyRouter witnessReq (fun _ => .err)).1 (by decide),
   (error_response_mapping ipParseNone catchAllRouter witnessReq (fun _ => .err)).2.1
     catchAllRoute (by decide) rfl,
   (error_response_mapping ipParseNone catchAllRouter witnessReq (fun _ => .err)).2.2
     (str "boom")⟩

/-- C6 (amended): a missed request increments only the `miss` counter; a
matched request whose forward succeeds increments only `hit`; a matched
request whose forward fails increments `hit` and then `error` — two
increments, because `hit` is recorded before the forward is awaited. -/
theorem request_counter_outcomes (ipParse : Str → Option IpAddr) (router : Router)
    (req : Request) (forward : RouteHandle → UpstreamResult) :
    ((handleRequest ipParse router req forward).2 = [Outcome.miss] ↔
      Router.select ipParse router req ((extractHost req).getD []) = none)
    ∧ (∀ route, Router.select ipParse router req ((extractHost req).getD []) = some route →
        (∀ resp, forward route = .ok resp →
          (handleRequest ipParse router req forward).2 = [Outcome.hit])
        ∧ (forward route = .err →
          (handleRequest ipParse router req forward).2 = [Outcome.hit, Outcome.error])) := by
  constructor
  · constructor
    · intro h
      cases hsel : Router.select ipParse router req ((extractHost req).getD []) with
      | none => rfl
      | some route =>
        cases hfw : forward route with
        | ok resp => simp [handleRequest, hsel, hfw] at h
        | err => simp [handleRequest, hsel, hfw] at h
    · intro hsel
      simp [handleRequest, hsel]
  · intro route hsel
    exact ⟨fun resp hok => by simp [handleRequest, hsel, hok],
      fun herr => by simp [handleRequest, hsel, herr]⟩

/-- C6 (amended) witness: hit-only and miss-only cases at fixtures. -/
theorem request_counter_outcomes_witness :
    (handleRequest ipParseNone catchAllRouter witnessReq
      (fun _ => .ok ⟨200, str "ok"⟩)).2 = [Outcome.hit] ∧
    (handleRequest ipParseNone emptyRouter witnessReq (fun _ => .err)).2 = [Outcome.miss] :=
  ⟨((request_counter_outcomes ipParseNone catchAllRouter witnessReq
      (fun _ => .ok ⟨200, str "ok"⟩)).2 catchAllRoute (by decide)).1 ⟨200, str "ok"⟩ rfl,
   (request_counter_outcomes ipParseNone emptyRouter witnessReq (fun _ => .err)).1.mpr
     (by decide)⟩

/-- C6 counterexample: a matched request whose forward fails makes two
counter increments (`hit`, then `error`) — not exactly one. -/
theorem upstream_failure_counted_twice :
    (handleRequest ipParseNone catchAllRouter witnessReq (fun _ => .err)).2
      = [Outcome.hit, Outcome.error] ∧
    ((handleRequest ipParseNone catchAllRouter witnessReq (fun _ => .err)).2).length ≠ 1 :=
  ⟨by decide, by decide⟩

/-- C7: a wildcard matcher `*.suffix` accepts a host exactly when the
host ends with `suffix` compared case-insensitively; in particular the
pattern `*.svc.local` compiles to the wildcard matcher on `svc.local`,
which accepts `foo.svc.local` and rejects `foo.svc`. -/
theorem wildcard_suffix_semantics (ipParse : Str → Option IpAddr) (suffix host : Str)
    (hip : ipParse (str "*.svc.local") = none) :
    HostMatcher.matches ipParse (.wildcard suffix) host = endsWithCI host suffix
    ∧ HostMatcher.new ipParse (str "*.svc.local") = .ok (.wildcard (str "svc.local"))
    ∧ HostMatcher.matches ipParse (.wildcard (str "svc.local")) (str "foo.svc.local") = true
    ∧ HostMatcher.matches ipParse (.wildcard (str "svc.local")) (str "foo.svc") = false := by
  refine ⟨isSuffixOf_lower_eq_endsWithCI host suffix, ?_, ?_, ?_⟩
  · unfold HostMatcher.new
    rw [if_neg (by decide), hip]
    rfl
  · show (lowerStr (str "svc.local")).isSuffixOf (lowerStr (str "foo.svc.local")) = true
    decide
  · show (lowerStr (str "svc.local")).isSuffixOf (lowerStr (str "foo.svc")) = false
    decide

/-- C7 witness: the equivalence and the compiled pattern at concrete
hosts (note `evilsvc.local` also ends with `svc.local`). -/
theorem wildcard_suffix_semantics_witness :
    HostMatcher.matches ipParseNone (.wildcard (str "svc.local")) (str "evilsvc.local")
      = endsWithCI (str "evilsvc.local") (str "svc.local")
    ∧ HostMatcher.new ipParseNone (str "*.svc.local") = .ok (.wildcard (str "svc.local")) :=
  ⟨(wildcard_suffix_semantics ipParseNone (str "svc.local") (str "evilsvc.local") rfl).1,
   (wildcard_suffix_semantics ipParseNone (str "svc.local") (str "evilsvc.local") rfl).2.1⟩

/-- C8 (amended): once the shutdown flag is set, no listener accepts a
new connection — along any continuation the spawned-connection count
never grows, and a single step can grow it only while the flag is unset
(the biased select prefers the flag branch) — and `Proxy::run` returns
only once every listener's accept loop has exited.  Connection tasks are
spawned detached and are not part of run's join set, so run may return
while accepted connections still have work left. -/
theorem shutdown_stops_accepts (s t : SysState) (h : Reachable s t) (hf : s.flag = true) :
    (t.conns.length = s.conns.length ∧ t.flag = true)
    ∧ (∀ a b : SysState, Step a b → a.conns.length < b.conns.length → a.flag = false)
    ∧ (∀ a b : SysState, Step a b → a.runReturned = false → b.runReturned = true →
        ∀ l ∈ a.listeners, l.done = true) := by
  refine ⟨?_, fun a b hab hlt => step_accept_flag hab hlt,
    fun a b hab hr1 hr2 => step_run_return hab hr1 hr2⟩
  unfold Reachable at h
  induction h with
  | refl => exact ⟨rfl, hf⟩
  | tail hr hstep ih =>
    obtain ⟨hlen, hflag⟩ := ih
    exact ⟨(step_conns_of_flag hstep hflag).trans hlen, step_flag_true hstep hflag⟩

/-- C8 (amended) witness: from the flagged state, the remaining trace
(loop exit, run return) accepts no further connection. -/
theorem shutdown_stops_accepts_witness :
    c8s4.conns.length = c8s2.conns.length ∧ c8s4.flag = true :=
  (shutdown_stops_accepts c8s2 c8s4
    (Relation.ReflTransGen.head (Step.shutdownBreak c8s2 0 ⟨[], false⟩ rfl rfl rfl)
      (Relation.ReflTransGen.single (Step.runReturn c8s3 (by decide) rfl)))
    rfl).1

/-- C8 counterexample: a trace — accept, flag set, loop exit, run return
— reaches a state where run has returned while the connection accepted
before shutdown still has service work left: run's join set holds only
listener tasks, so it does not wait for connection tasks. -/
theorem run_returns_before_connection_completes :
    Reachable c8s0 c8s4 ∧ c8s4.runReturned = true ∧
    c8s4.conns.map ConnTask.work = [2] := by
  refine ⟨?_, rfl, rfl⟩
  exact Relation.ReflTransGen.head
    (Step.acceptConn c8s0 0 ⟨[7], false⟩ 7 [] 2 rfl rfl rfl rfl)
    (Relation.ReflTransGen.head (Step.setFlag c8s1)
      (Relation.ReflTransGen.head (Step.shutdownBreak c8s2 0 ⟨[], false⟩ rfl rfl rfl)
        (Relation.ReflTransGen.single (Step.runReturn c8s3 (by decide) rfl))))

/-- C10: a request with no absolute-URI host and no decodable `Host`
header yields `none` from host extraction; routing proceeds with the
empty string as host — the miss counter fires exactly when no route
matches under that empty host — and a matcher set whose host list is
empty or contains the `*` (Any) matcher passes the host check for it. -/
theorem empty_host_routing (ipParse : Str → Option IpAddr) (router : Router)
    (req : Request) (forward : RouteHandle → UpstreamResult)
    (h1 : req.uri.host = none)
    (h2 : (req.headers.get (str "host")).bind HeaderValue.toStr = none) :
    extractHost req = none
    ∧ ((handleRequest ipParse router req forward).2 = [Outcome.miss] ↔
        Router.select ipParse router req [] = none)
    ∧ (∀ hosts path method headers, hosts = [] ∨ HostMatcher.any ∈ hosts →
        RouteMatchers.matches ipParse ⟨hosts, none, none, []⟩ [] path method headers
          = true) := by
  have hext : extractHost req = none := by
    unfold extractHost
    rw [h1]
    exact h2
  refine ⟨hext, ?_, ?_⟩
  · constructor
    · intro h
      cases hsel : Router.select ipParse router req [] with
      | none => rfl
      | some route =>
        have hsel2 : Router.select ipParse router req ((extractHost req).getD [])
            = some route := by rw [hext]; exact hsel
        cases hfw : forward route with
        | ok resp => simp [handleRequest, hsel2, hfw] at h
        | err => simp [handleRequest, hsel2, hfw] at h
    · intro hsel
      simp [handleRequest, hext, hsel]
  · intro hosts path method headers hh
    rcases hh with rfl | hmem
    · rfl
    · have hany : hosts.any (fun hm => HostMatcher.matches ipParse hm []) = true :=
        List.any_eq_true.mpr ⟨.any, hmem, rfl⟩
      simp [RouteMatchers.matches, hany]

/-- C10 witness: the concrete host-less request at concrete matchers. -/
theorem empty_host_routing_witness :
    extractHost witnessReq = none ∧
    RouteMatchers.matches ipParseNone ⟨[], none, none, []⟩ [] (str "/x") (str "GET") ⟨[]⟩
      = true ∧
    ((handleRequest ipParseNone emptyRouter witnessReq (fun _ => .err)).2 = [Outcome.miss] ↔
      Router.select ipParseNone emptyRouter witnessReq [] = none) :=
  ⟨(empty_host_routing ipParseNone emptyRouter witnessReq (fun _ => .err) rfl rfl).1,
   (empty_host_routing ipParseNone emptyRouter witnessReq (fun _ => .err) rfl rfl).2.2
     [] (str "/x") (str "GET") ⟨[]⟩ (Or.inl rfl),
   (empty_host_routing ipParseNone emptyRouter witnessReq (fun _ => .err) rfl rfl).2.1⟩

end Jester
